import Mathlib

/-!
Verification development for the Salih Container Load Optimization engine.

The repository is a TypeScript web application (Express routes, Zod schemas,
React pages) wrapping a Python optimization script (server/optimizer.py,
invoked as a child process from server/routes.ts).  The shared Zod schemas
(shared/schema.ts) fix the shapes of Product, OptimizationConfig, ResultItem
and OptimizationResults; server/routes.ts fixes the HTTP-level error handling
around upload and optimization.  The optimization engine proper
(server/optimizer.py) is not part of the sources available here, so its
stages (MetricDeriver, ScoreNormalizer, ObjectiveBuilder, ConstraintModel,
Solver, ResultAggregator) are modelled from the specification document.

Real arithmetic of the source is embedded as exact rational arithmetic (ℚ).
-/

namespace ContainerOpt

/-- Product record, embedded from productSchema in shared/schema.ts:
SKU and Description are non-empty strings (validation is modelled
separately in the upload handler), box dimensions and weight are positive
numbers, AvailableStock / CoverageDays / MinShipQty are integers,
LeadTimeDays is an optional positive integer. -/
structure Product where
  SKU : String
  Description : String
  BoxLength_m : ℚ
  BoxWidth_m : ℚ
  BoxHeight_m : ℚ
  WeightPerBox_kg : ℚ
  AvailableStock : ℕ
  SalesPerDay : ℚ
  CoverageDays : ℕ
  ProfitPerBox : ℚ
  CostPerBox : ℚ
  MinShipQty : ℕ
  LeadTimeDays : Option ℕ
deriving DecidableEq

/-- Global optimization configuration, embedded from
optimizationConfigSchema in shared/schema.ts. -/
structure OptimizationConfig where
  CONTAINER_VOLUME_M3 : ℚ
  CONTAINER_MAX_WEIGHT_KG : ℚ
  AVAILABLE_BUDGET : ℚ
  GLOBAL_LEAD_TIME_DAYS : ℕ
  w_profit : ℚ
  w_density : ℚ
  w_velocity : ℚ
deriving DecidableEq

/-- Modelled from the spec: server/optimizer.py is not among the available
sources; per spec section 4.1 the effective lead time is the product's own
LeadTimeDays when present, otherwise the configuration's global default. -/
def effectiveLeadTime (cfg : OptimizationConfig) (p : Product) : ℕ :=
  p.LeadTimeDays.getD cfg.GLOBAL_LEAD_TIME_DAYS

/-- Modelled from the spec: MetricDeriver demand formula
demand = salesPerDay * (leadTimeDays + coverageDays), spec section 4.1. -/
def demand (cfg : OptimizationConfig) (p : Product) : ℚ :=
  p.SalesPerDay * ((effectiveLeadTime cfg p : ℚ) + (p.CoverageDays : ℚ))

/-- Modelled from the spec: MetricDeriver order quantity
orderQty = max(0, ceil(demand) - availableStock), spec section 4.1.
Int.toNat realises the clamp at zero. -/
def orderQty (cfg : OptimizationConfig) (p : Product) : ℕ :=
  (Int.ceil (demand cfg p) - (p.AvailableStock : ℤ)).toNat

/-- Unit volume of one box, the product of the three dimensions
(spec section 3; also computed in client/src/pages/upload.tsx). -/
def unitVolume (p : Product) : ℚ :=
  p.BoxLength_m * p.BoxWidth_m * p.BoxHeight_m

/-- Modelled from the spec: the per-product DerivedMetrics record of
spec section 3 (orderQty, unitVolume, profitDensity, salesVelocity),
keeping the originating product for later stages. -/
structure DerivedMetrics where
  product : Product
  orderQty : ℕ
  unitVolume : ℚ
  profitDensity : ℚ
  salesVelocity : ℚ
deriving DecidableEq

/-- Modelled from the spec: MetricDeriver, spec section 4.1. -/
def deriveMetrics (cfg : OptimizationConfig) (p : Product) : DerivedMetrics :=
  { product := p
    orderQty := orderQty cfg p
    unitVolume := unitVolume p
    profitDensity := p.ProfitPerBox / unitVolume p
    salesVelocity := p.SalesPerDay }

/-- Minimum of a list of rationals (numpy-style min over a non-empty
array; 0 for the empty list, which the engine never queries). -/
def rminList : List ℚ → ℚ
  | [] => 0
  | x :: xs => xs.foldl min x

/-- Maximum of a list of rationals (numpy-style max over a non-empty
array; 0 for the empty list, which the engine never queries). -/
def rmaxList : List ℚ → ℚ
  | [] => 0
  | x :: xs => xs.foldl max x

/-- Modelled from the spec: ScoreNormalizer min-max normalization of a
single value, spec section 4.2 - (value - min) / (max - min), with the
degenerate case max == min mapped to the constant 1.0. -/
def normalizeValue (mn mx v : ℚ) : ℚ :=
  if mx = mn then 1 else (v - mn) / (mx - mn)

/-- Modelled from the spec: ScoreNormalizer applied across one metric of
the candidate set, spec section 4.2. -/
def normalizeList (vs : List ℚ) : List ℚ :=
  vs.map (normalizeValue (rminList vs) (rmaxList vs))

/-- A candidate together with its weighted per-unit score
(ObjectiveBuilder output, spec section 4.3). -/
structure ScoredCandidate where
  metrics : DerivedMetrics
  score : ℚ
deriving DecidableEq

/-- Modelled from the spec: ObjectiveBuilder, spec section 4.3 -
Score = w_profit * normProfit + w_density * normDensity
+ w_velocity * normVelocity per candidate, with the three metrics each
min-max normalized across the candidate set by ScoreNormalizer. -/
def scoreCandidates (cfg : OptimizationConfig) (ds : List DerivedMetrics) :
    List ScoredCandidate :=
  let nps := normalizeList (ds.map (fun d => d.product.ProfitPerBox))
  let nds := normalizeList (ds.map (fun d => d.profitDensity))
  let nvs := normalizeList (ds.map (fun d => d.salesVelocity))
  (ds.zip (nps.zip (nds.zip nvs))).map (fun q =>
    { metrics := q.1
      score := cfg.w_profit * q.2.1 + cfg.w_density * q.2.2.1 +
        cfg.w_velocity * q.2.2.2 })

/-- Modelled from the spec: the semi-continuous domain of the decision
variable of one candidate, spec section 4.4 - either 0 or an integer in
[MinShipQty, orderQty] (for MinShipQty = 0 this is the plain bounded
integer range 0..orderQty). -/
def semiContinuousDomain (c : ScoredCandidate) : List ℕ :=
  0 :: (List.range (c.metrics.orderQty + 1)).filter
    (fun x => decide (max 1 c.metrics.product.MinShipQty ≤ x))

/-- Modelled from the spec: the search space of the integer program -
all assignments of the decision variables, one value from its
semi-continuous domain per candidate, in candidate order. -/
def assignments : List ScoredCandidate → List (List ℕ)
  | [] => [[]]
  | c :: cs => (semiContinuousDomain c).flatMap
      (fun x => (assignments cs).map (fun xs => x :: xs))

/-- Linear aggregate sum_i f(c_i) * x_i over candidates and an
assignment, the common form of the objective and the three constraint
left-hand sides (spec section 4.4). -/
def totalOf (f : ScoredCandidate → ℚ) (cs : List ScoredCandidate)
    (xs : List ℕ) : ℚ :=
  (List.zipWith (fun c (x : ℕ) => f c * (x : ℚ)) cs xs).sum

/-- Modelled from the spec: the three simultaneous capacity constraints
of spec section 4.4 - volume, weight and budget. -/
def feasibleAssignment (cfg : OptimizationConfig)
    (cs : List ScoredCandidate) (xs : List ℕ) : Bool :=
  decide (totalOf (fun c => c.metrics.unitVolume) cs xs ≤ cfg.CONTAINER_VOLUME_M3) &&
  decide (totalOf (fun c => c.metrics.product.WeightPerBox_kg) cs xs ≤ cfg.CONTAINER_MAX_WEIGHT_KG) &&
  decide (totalOf (fun c => c.metrics.product.CostPerBox) cs xs ≤ cfg.AVAILABLE_BUDGET)

/-- Objective value sum_i Score_i * x_i (spec section 4.4). -/
def objectiveValue (cs : List ScoredCandidate) (xs : List ℕ) : ℚ :=
  totalOf (fun c => c.score) cs xs

/-- First maximizer of f in a list; on ties the earlier element wins,
realising the deterministic tie-breaking the Solver wrapper must impose
(spec section 8). -/
def bestBy {α : Type} (f : α → ℚ) : List α → Option α
  | [] => none
  | a :: rest =>
    match bestBy f rest with
    | none => some a
    | some b => if f a < f b then some b else some a

/-- Outcome of one bounded solver invocation. -/
inductive SolveOutcome where
  | optimalAssignment (xs : List ℕ)
  | infeasible
  | noConclusion
deriving DecidableEq

/-- Modelled from the spec: the Solver of spec sections 4.5 and 5 - an
exhaustive search over the finite assignment space under an explicit
iteration budget (the shallow analogue of the bounded time limit).  When
the budget does not cover the search space the solver gives up with
noConclusion (mapped to status Undefined); otherwise it returns the
first objective maximizer among feasible assignments, or infeasible when
no assignment is feasible. -/
def solveBounded (fuel : ℕ) (cfg : OptimizationConfig)
    (cs : List ScoredCandidate) : SolveOutcome :=
  let space := assignments cs
  if fuel < space.length then .noConclusion
  else
    match bestBy (objectiveValue cs) (space.filter (feasibleAssignment cfg cs)) with
    | none => .infeasible
    | some xs => .optimalAssignment xs

/-- Canonical solver status, embedded from optimizationResultsSchema in
shared/schema.ts (the five-value enum). -/
inductive SolverStatus where
  | Optimal
  | Infeasible
  | Unbounded
  | Undefined
  | Error
deriving DecidableEq

/-- Per-item result record, embedded from resultItemSchema in
shared/schema.ts. -/
structure ResultItem where
  SKU : String
  Description : String
  SelectedQty : ℕ
  VolumeUsed_m3 : ℚ
  WeightUsed_kg : ℚ
  TotalCost : ℚ
  TotalProfit : ℚ
  Score : ℚ
  OrderQty : ℕ
deriving DecidableEq

/-- Full result record, embedded from optimizationResultsSchema in
shared/schema.ts. -/
structure OptimizationResults where
  status : SolverStatus
  statusMessage : Option String
  totalBoxes : ℕ
  totalVolume_m3 : ℚ
  volumeUtilization : ℚ
  totalWeight_kg : ℚ
  weightUtilization : ℚ
  totalCost : ℚ
  budgetUtilization : ℚ
  totalProfit : ℚ
  totalScore : ℚ
  selectedItems : List ResultItem
deriving DecidableEq

/-- A result with the given status and message and every aggregate
zeroed with an empty item list - the shape shared/schema.ts and
server/routes.ts use for every non-Optimal outcome. -/
def zeroResults (st : SolverStatus) (msg : String) : OptimizationResults :=
  { status := st, statusMessage := some msg, totalBoxes := 0
    totalVolume_m3 := 0, volumeUtilization := 0, totalWeight_kg := 0
    weightUtilization := 0, totalCost := 0, budgetUtilization := 0
    totalProfit := 0, totalScore := 0, selectedItems := [] }

/-- Modelled from the spec: ResultAggregator per-item emission, spec
section 4.6 - one ResultItem per candidate with positive selected
quantity, fields multiplied out from the per-box figures. -/
def mkResultItem (c : ScoredCandidate) (q : ℕ) : ResultItem :=
  { SKU := c.metrics.product.SKU
    Description := c.metrics.product.Description
    SelectedQty := q
    VolumeUsed_m3 := c.metrics.unitVolume * (q : ℚ)
    WeightUsed_kg := c.metrics.product.WeightPerBox_kg * (q : ℚ)
    TotalCost := c.metrics.product.CostPerBox * (q : ℚ)
    TotalProfit := c.metrics.product.ProfitPerBox * (q : ℚ)
    Score := c.score * (q : ℚ)
    OrderQty := c.metrics.orderQty }

/-- Modelled from the spec: the emitted item list - candidates with
x_i > 0, in candidate (input) order, spec section 4.6. -/
def selectedResultItems (cs : List ScoredCandidate) (xs : List ℕ) :
    List ResultItem :=
  ((cs.zip xs).filter (fun q => decide (0 < q.2))).map
    (fun q => mkResultItem q.1 q.2)

/-- Modelled from the spec: ResultAggregator, spec section 4.6 -
aggregate totals are exact sums over emitted items, utilization
percentages are 100 * total / capacity. -/
def aggregateResults (cfg : OptimizationConfig)
    (cs : List ScoredCandidate) (xs : List ℕ) : OptimizationResults :=
  let items := selectedResultItems cs xs
  let tv := (items.map (fun it => it.VolumeUsed_m3)).sum
  let tw := (items.map (fun it => it.WeightUsed_kg)).sum
  let tc := (items.map (fun it => it.TotalCost)).sum
  let tp := (items.map (fun it => it.TotalProfit)).sum
  let ts := (items.map (fun it => it.Score)).sum
  let tb := (items.map (fun it => it.SelectedQty)).sum
  { status := .Optimal
    statusMessage := some "Optimal solution found"
    totalBoxes := tb
    totalVolume_m3 := tv
    volumeUtilization := 100 * tv / cfg.CONTAINER_VOLUME_M3
    totalWeight_kg := tw
    weightUtilization := 100 * tw / cfg.CONTAINER_MAX_WEIGHT_KG
    totalCost := tc
    budgetUtilization := 100 * tc / cfg.AVAILABLE_BUDGET
    totalProfit := tp
    totalScore := ts
    selectedItems := items }

/-- Modelled from the spec: the candidate set - products with positive
derived order quantity, spec section 3. -/
def candidateSet (cfg : OptimizationConfig) (ps : List Product) :
    List DerivedMetrics :=
  (ps.map (deriveMetrics cfg)).filter (fun d => decide (0 < d.orderQty))

/-- Modelled from the spec: the whole engine pipeline of server/optimizer.py
(spec sections 2, 4 and 7): derive metrics, guard degenerate geometry
(Error naming the offending SKU), short-circuit the empty candidate set
to an Optimal all-zero result, otherwise normalize, score, solve under
the iteration budget and aggregate; Undefined and Infeasible solver
outcomes map to all-zero results with a descriptive message. -/
def optimize (fuel : ℕ) (cfg : OptimizationConfig) (ps : List Product) :
    OptimizationResults :=
  match (candidateSet cfg ps).find? (fun d => decide (d.unitVolume ≤ 0)) with
  | some d => zeroResults .Error ("Degenerate geometry for SKU " ++ d.product.SKU)
  | none =>
    match candidateSet cfg ps with
    | [] => zeroResults .Optimal "Optimal - no products require shipment"
    | _ :: _ =>
      match solveBounded fuel cfg (scoreCandidates cfg (candidateSet cfg ps)) with
      | .noConclusion =>
        zeroResults .Undefined "Solver stopped at the time limit without a conclusive status"
      | .infeasible =>
        zeroResults .Infeasible "Constraints cannot be simultaneously satisfied"
      | .optimalAssignment xs =>
        aggregateResults cfg (scoreCandidates cfg (candidateSet cfg ps)) xs

/-- The possible outcomes of one POST /api/optimize request as seen by
the close/catch handlers of server/routes.ts: a Zod validation failure
of the request body, any other synchronous exception, the Python child
process exiting non-zero, child output that is not parseable JSON, or a
successfully parsed OptimizationResults value. -/
inductive RouteOutcome where
  | zodError (msg : String)
  | serverError (msg : String)
  | exitNonZero (stderr : String)
  | parseFailure
  | parsed (r : OptimizationResults)

/-- The POST /api/optimize handler of server/routes.ts, as a function
from the request outcome to the HTTP status code and the response body.
Every failure branch builds the same all-zero Error-status record that
the source writes out literally; a parsed result is passed through
unchanged. -/
def optimizeRoute : RouteOutcome → ℕ × OptimizationResults
  | .zodError msg => (400, zeroResults .Error ("Validation error: " ++ msg))
  | .serverError msg => (500, zeroResults .Error msg)
  | .exitNonZero stderr =>
      (500, zeroResults .Error (if stderr = "" then "Optimization failed" else stderr))
  | .parseFailure => (500, zeroResults .Error "Failed to parse optimization results")
  | .parsed r => (200, r)

/-- Structural well-formedness of a result at the engine boundary: any
non-Optimal status comes with every aggregate total and utilization
zero, an empty item list and a status message describing the cause
(spec sections 4.6 and 7). -/
def wellFormedResults (r : OptimizationResults) : Prop :=
  r.status ≠ .Optimal →
    r.totalBoxes = 0 ∧ r.totalVolume_m3 = 0 ∧ r.volumeUtilization = 0 ∧
    r.totalWeight_kg = 0 ∧ r.weightUtilization = 0 ∧ r.totalCost = 0 ∧
    r.budgetUtilization = 0 ∧ r.totalProfit = 0 ∧ r.totalScore = 0 ∧
    r.selectedItems = [] ∧ r.statusMessage.isSome = true

/-- One raw CSV record after the cast step of server/routes.ts: the
csv-parse cast maps every numeric column through parseFloat (NaN
becoming 0), so numeric fields arrive as arbitrary numbers and the
integrality checks happen only in productSchema.  LeadTimeDays is
absent when its column is missing. -/
structure RawRecord where
  SKU : String
  Description : String
  BoxLength_m : ℚ
  BoxWidth_m : ℚ
  BoxHeight_m : ℚ
  WeightPerBox_kg : ℚ
  AvailableStock : ℚ
  SalesPerDay : ℚ
  CoverageDays : ℚ
  ProfitPerBox : ℚ
  CostPerBox : ℚ
  MinShipQty : ℚ
  LeadTimeDays : Option ℚ
deriving DecidableEq

/-- Whether a rational is an integer (denominator 1), modelling the
z.number().int() checks of productSchema. -/
def isIntRat (q : ℚ) : Bool :=
  q.den = 1

/-- productSchema.parse of shared/schema.ts as a Boolean predicate:
non-empty SKU and Description, positive dimensions and weight,
non-negative integer AvailableStock, non-negative SalesPerDay, positive
integer CoverageDays, any ProfitPerBox, non-negative CostPerBox,
non-negative integer MinShipQty, and LeadTimeDays a positive integer
when present. -/
def validProduct (r : RawRecord) : Bool :=
  decide (r.SKU ≠ "") && decide (r.Description ≠ "") &&
  decide (0 < r.BoxLength_m) && decide (0 < r.BoxWidth_m) &&
  decide (0 < r.BoxHeight_m) && decide (0 < r.WeightPerBox_kg) &&
  (isIntRat r.AvailableStock && decide (0 ≤ r.AvailableStock)) &&
  decide (0 ≤ r.SalesPerDay) &&
  (isIntRat r.CoverageDays && decide (0 < r.CoverageDays)) &&
  decide (0 ≤ r.CostPerBox) &&
  (isIntRat r.MinShipQty && decide (0 ≤ r.MinShipQty)) &&
  (match r.LeadTimeDays with
   | none => true
   | some d => isIntRat d && decide (0 < d))

/-- Per-row error messages of the upload loop of server/routes.ts: one
entry per row failing productSchema validation, tagged with its 1-based
row number (the Zod message text itself comes from the external zod
library and is abstracted). -/
def uploadErrors (rs : List RawRecord) : List String :=
  rs.enum.filterMap (fun q =>
    if validProduct q.2 then none
    else some ("Row " ++ toString (q.1 + 1) ++ ": invalid"))

/-- Response of POST /api/upload: HTTP status code, success flag,
validated products and per-row error messages (modelling the
UploadResponse of shared/schema.ts; the absent optional fields of the
source are encoded as empty lists). -/
structure UploadResponse where
  httpStatus : ℕ
  success : Bool
  products : List RawRecord
  errors : List String
deriving DecidableEq

/-- The POST /api/upload handler of server/routes.ts over the parsed
records (none models the no-file case): rows are validated one by one,
invalid rows are dropped into the per-row errors list; the request is
rejected with 400 only when no file was uploaded or when there were
errors and not a single row validated; otherwise the validated subset
is returned with success true. -/
def uploadRoute : Option (List RawRecord) → UploadResponse
  | none => { httpStatus := 400, success := false, products := [], errors := ["No file uploaded"] }
  | some rs =>
    let ps := rs.filter validProduct
    let es := uploadErrors rs
    if es ≠ [] ∧ ps = [] then
      { httpStatus := 400, success := false, products := [], errors := es }
    else
      { httpStatus := 200, success := true, products := ps, errors := es }

/-! Concrete sample data used to exercise the theorems on closed
inputs: a single small product in the spirit of the sample CSV of the
repository README. -/

/-- Sample product: unit cube, demand = 1 * (1 + 2) = 3 over zero
stock, so orderQty 3, with minimum shippable quantity 2. -/
def pA : Product :=
  { SKU := "A", Description := "Tea", BoxLength_m := 1, BoxWidth_m := 1,
    BoxHeight_m := 1, WeightPerBox_kg := 50, AvailableStock := 0,
    SalesPerDay := 1, CoverageDays := 2, ProfitPerBox := 30, CostPerBox := 20,
    MinShipQty := 2, LeadTimeDays := some 1 }

/-- Sample product with no LeadTimeDays field. -/
def pNoLead : Product :=
  { SKU := "B", Description := "Mate", BoxLength_m := 1, BoxWidth_m := 1,
    BoxHeight_m := 1, WeightPerBox_kg := 10, AvailableStock := 0,
    SalesPerDay := 2, CoverageDays := 3, ProfitPerBox := 5, CostPerBox := 4,
    MinShipQty := 0, LeadTimeDays := none }

/-- Sample product whose stock already covers demand, so orderQty 0. -/
def pStocked : Product :=
  { SKU := "C", Description := "Chai", BoxLength_m := 1, BoxWidth_m := 1,
    BoxHeight_m := 1, WeightPerBox_kg := 10, AvailableStock := 10,
    SalesPerDay := 1, CoverageDays := 2, ProfitPerBox := 5, CostPerBox := 4,
    MinShipQty := 0, LeadTimeDays := some 1 }

/-- Sample configuration with profit-only weighting. -/
def cfg0 : OptimizationConfig :=
  { CONTAINER_VOLUME_M3 := 10, CONTAINER_MAX_WEIGHT_KG := 1000,
    AVAILABLE_BUDGET := 1000, GLOBAL_LEAD_TIME_DAYS := 30,
    w_profit := 1, w_density := 0, w_velocity := 0 }

/-- Derived metrics of pA under cfg0. -/
def dA : DerivedMetrics :=
  { product := pA, orderQty := 3, unitVolume := 1, profitDensity := 30,
    salesVelocity := 1 }

/-- Scored candidate of pA under cfg0 (single candidate, so every
normalized metric is 1 and the score is w_profit = 1). -/
def cA : ScoredCandidate :=
  { metrics := dA, score := 1 }

/-- The single emitted item of the pA run. -/
def itemA : ResultItem := mkResultItem cA 3

/-- A raw upload record that passes productSchema validation. -/
def rGood : RawRecord :=
  { SKU := "G", Description := "Good", BoxLength_m := 1, BoxWidth_m := 1,
    BoxHeight_m := 1, WeightPerBox_kg := 2, AvailableStock := 5,
    SalesPerDay := 1, CoverageDays := 3, ProfitPerBox := 7, CostPerBox := 6,
    MinShipQty := 0, LeadTimeDays := none }

/-- A raw upload record rejected by validation (empty SKU). -/
def rBad : RawRecord :=
  { SKU := "", Description := "Bad", BoxLength_m := 1, BoxWidth_m := 1,
    BoxHeight_m := 1, WeightPerBox_kg := 2, AvailableStock := 5,
    SalesPerDay := 1, CoverageDays := 3, ProfitPerBox := 7, CostPerBox := 6,
    MinShipQty := 0, LeadTimeDays := none }

/-! Helper lemmas about list minimum / maximum folds used by the
ScoreNormalizer proofs. -/

lemma foldl_min_le_init : ∀ (xs : List ℚ) (a : ℚ), xs.foldl min a ≤ a
  | [], a => le_refl a
  | x :: xs, a => le_trans (foldl_min_le_init xs (min a x)) (min_le_left a x)

lemma foldl_min_le_mem : ∀ (xs : List ℚ) (a v : ℚ), v ∈ xs → xs.foldl min a ≤ v
  | x :: xs, a, v, h => by
    rcases List.mem_cons.mp h with h1 | h2
    · subst h1
      exact le_trans (foldl_min_le_init xs (min a v)) (min_le_right a v)
    · exact foldl_min_le_mem xs (min a x) v h2

lemma foldl_min_cases : ∀ (xs : List ℚ) (a : ℚ),
    xs.foldl min a = a ∨ xs.foldl min a ∈ xs
  | [], _ => Or.inl rfl
  | x :: xs, a => by
    rcases foldl_min_cases xs (min a x) with h | h
    · rcases min_choice a x with h2 | h2
      · exact Or.inl (by rw [List.foldl_cons, h, h2])
      · exact Or.inr (by rw [List.foldl_cons, h, h2]; exact List.mem_cons_self x xs)
    · exact Or.inr (List.mem_cons_of_mem x h)

lemma init_le_foldl_max : ∀ (xs : List ℚ) (a : ℚ), a ≤ xs.foldl max a
  | [], a => le_refl a
  | x :: xs, a => le_trans (le_max_left a x) (init_le_foldl_max xs (max a x))

lemma mem_le_foldl_max : ∀ (xs : List ℚ) (a v : ℚ), v ∈ xs → v ≤ xs.foldl max a
  | x :: xs, a, v, h => by
    rcases List.mem_cons.mp h with h1 | h2
    · subst h1
      exact le_trans (le_max_right a v) (init_le_foldl_max xs (max a v))
    · exact mem_le_foldl_max xs (max a x) v h2

lemma foldl_max_cases : ∀ (xs : List ℚ) (a : ℚ),
    xs.foldl max a = a ∨ xs.foldl max a ∈ xs
  | [], _ => Or.inl rfl
  | x :: xs, a => by
    rcases foldl_max_cases xs (max a x) with h | h
    · rcases max_choice a x with h2 | h2
      · exact Or.inl (by rw [List.foldl_cons, h, h2])
      · exact Or.inr (by rw [List.foldl_cons, h, h2]; exact List.mem_cons_self x xs)
    · exact Or.inr (List.mem_cons_of_mem x h)

lemma rminList_le_mem (vs : List ℚ) (v : ℚ) (h : v ∈ vs) : rminList vs ≤ v := by
  cases vs with
  | nil => cases h
  | cons x xs =>
    rcases List.mem_cons.mp h with h1 | h2
    · subst h1; exact foldl_min_le_init xs v
    · exact foldl_min_le_mem xs x v h2

lemma rminList_mem (vs : List ℚ) (h : vs ≠ []) : rminList vs ∈ vs := by
  cases vs with
  | nil => exact absurd rfl h
  | cons x xs =>
    rcases foldl_min_cases xs x with h1 | h1
    · exact List.mem_cons.mpr (Or.inl h1)
    · exact List.mem_cons_of_mem x h1

lemma mem_le_rmaxList (vs : List ℚ) (v : ℚ) (h : v ∈ vs) : v ≤ rmaxList vs := by
  cases vs with
  | nil => cases h
  | cons x xs =>
    rcases List.mem_cons.mp h with h1 | h2
    · subst h1; exact init_le_foldl_max xs v
    · exact mem_le_foldl_max xs x v h2

lemma rmaxList_mem (vs : List ℚ) (h : vs ≠ []) : rmaxList vs ∈ vs := by
  cases vs with
  | nil => exact absurd rfl h
  | cons x xs =>
    rcases foldl_max_cases xs x with h1 | h1
    · exact List.mem_cons.mpr (Or.inl h1)
    · exact List.mem_cons_of_mem x h1

/-- C3: for every product and configuration, MetricDeriver computes
demand = SalesPerDay * (effective lead time + CoverageDays) and
orderQty = max(0, ceil(demand) - AvailableStock), an integer that is
always at least 0. -/
theorem metric_deriver_demand_orderQty (cfg : OptimizationConfig) (p : Product) :
    demand cfg p = p.SalesPerDay * ((effectiveLeadTime cfg p : ℚ) + (p.CoverageDays : ℚ)) ∧
    (orderQty cfg p : ℤ) = max 0 (Int.ceil (demand cfg p) - (p.AvailableStock : ℤ)) ∧
    0 ≤ (orderQty cfg p : ℤ) := by
  refine ⟨rfl, ?_, Int.ofNat_nonneg _⟩
  rw [orderQty, Int.toNat_eq_max, max_comm]

/-- C9: the effective lead time used in demand derivation is the
configuration's GLOBAL_LEAD_TIME_DAYS when the product's LeadTimeDays
is absent, and the product's own value unchanged when present. -/
theorem lead_time_defaulting (cfg : OptimizationConfig) (p : Product) :
    (p.LeadTimeDays = none →
      effectiveLeadTime cfg p = cfg.GLOBAL_LEAD_TIME_DAYS ∧
      demand cfg p = p.SalesPerDay * ((cfg.GLOBAL_LEAD_TIME_DAYS : ℚ) + (p.CoverageDays : ℚ))) ∧
    (∀ d : ℕ, p.LeadTimeDays = some d →
      effectiveLeadTime cfg p = d ∧
      demand cfg p = p.SalesPerDay * ((d : ℚ) + (p.CoverageDays : ℚ))) := by
  constructor
  · intro h
    have he : effectiveLeadTime cfg p = cfg.GLOBAL_LEAD_TIME_DAYS := by
      rw [effectiveLeadTime, h, Option.getD_none]
    exact ⟨he, by rw [demand, he]⟩
  · intro d h
    have he : effectiveLeadTime cfg p = d := by
      rw [effectiveLeadTime, h, Option.getD_some]
    exact ⟨he, by rw [demand, he]⟩

/-- C4: min-max normalization of a non-empty metric list keeps every
value in [0,1]; in the degenerate case max = min every normalized value
is exactly 1 (whatever the sign of the raw values), and otherwise the
values 0 and 1 are both attained over the set.  The engine applies
normalizeList to each of the three metric lists in scoreCandidates. -/
theorem score_normalizer_minmax (vs : List ℚ) (hne : vs ≠ []) :
    (∀ v ∈ normalizeList vs, 0 ≤ v ∧ v ≤ 1) ∧
    (rmaxList vs = rminList vs → ∀ v ∈ normalizeList vs, v = 1) ∧
    (rmaxList vs ≠ rminList vs →
      (0 : ℚ) ∈ normalizeList vs ∧ (1 : ℚ) ∈ normalizeList vs) := by
  have hminmax : rminList vs ≤ rmaxList vs :=
    le_trans (rminList_le_mem vs (rmaxList vs) (rmaxList_mem vs hne)) (le_refl _)
  refine ⟨?_, ?_, ?_⟩
  · intro v hv
    rcases List.mem_map.mp hv with ⟨w, hw, rfl⟩
    rw [normalizeValue]
    by_cases hdeg : rmaxList vs = rminList vs
    · rw [if_pos hdeg]; norm_num
    · rw [if_neg hdeg]
      have hlt : 0 < rmaxList vs - rminList vs :=
        sub_pos.mpr (lt_of_le_of_ne hminmax (fun he => hdeg he.symm))
      constructor
      · exact div_nonneg (sub_nonneg.mpr (rminList_le_mem vs w hw)) (le_of_lt hlt)
      · rw [div_le_one hlt]
        exact sub_le_sub_right (mem_le_rmaxList vs w hw) _
  · intro hdeg v hv
    rcases List.mem_map.mp hv with ⟨w, hw, rfl⟩
    rw [normalizeValue, if_pos hdeg]
  · intro hdeg
    have hlt : 0 < rmaxList vs - rminList vs :=
      sub_pos.mpr (lt_of_le_of_ne hminmax (fun he => hdeg he.symm))
    constructor
    · refine List.mem_map.mpr ⟨rminList vs, rminList_mem vs hne, ?_⟩
      rw [normalizeValue, if_neg hdeg, sub_self, zero_div]
    · refine List.mem_map.mpr ⟨rmaxList vs, rmaxList_mem vs hne, ?_⟩
      rw [normalizeValue, if_neg hdeg, div_self (ne_of_gt hlt)]

/-- C8: the engine is a pure function of its input, so byte-identical
inputs give byte-identical results, including the order of the
selectedItems list (the model imposes the deterministic first-maximizer
tie-break of bestBy and emits items in candidate order). -/
theorem optimize_deterministic (fuel : ℕ) (cfg1 cfg2 : OptimizationConfig)
    (ps1 ps2 : List Product) (hc : cfg1 = cfg2) (hp : ps1 = ps2) :
    optimize fuel cfg1 ps1 = optimize fuel cfg2 ps2 ∧
    (optimize fuel cfg1 ps1).selectedItems = (optimize fuel cfg2 ps2).selectedItems := by
  subst hc; subst hp; exact ⟨rfl, rfl⟩

/-! Helper lemmas about the solver search space. -/

lemma bestBy_mem {α : Type} (f : α → ℚ) :
    ∀ (l : List α) (a : α), bestBy f l = some a → a ∈ l
  | [], a, h => by simp [bestBy] at h
  | b :: rest, a, h => by
    rw [bestBy] at h
    cases hrec : bestBy f rest with
    | none =>
      rw [hrec] at h
      dsimp only at h
      injection h with h
      exact h ▸ List.mem_cons_self b rest
    | some c =>
      rw [hrec] at h
      dsimp only at h
      by_cases hlt : f b < f c
      · rw [if_pos hlt] at h
        injection h with h
        exact h ▸ List.mem_cons_of_mem b (bestBy_mem f rest c hrec)
      · rw [if_neg hlt] at h
        injection h with h
        exact h ▸ List.mem_cons_self b rest

lemma mem_semiContinuousDomain {c : ScoredCandidate} {q : ℕ}
    (h : q ∈ semiContinuousDomain c) :
    q = 0 ∨ (0 < q ∧ c.metrics.product.MinShipQty ≤ q ∧ q ≤ c.metrics.orderQty) := by
  rcases List.mem_cons.mp h with h1 | h2
  · exact Or.inl h1
  · have h3 := List.mem_filter.mp h2
    have h4 : max 1 c.metrics.product.MinShipQty ≤ q := of_decide_eq_true h3.2
    have h5 := max_le_iff.mp h4
    exact Or.inr ⟨h5.1, h5.2, Nat.lt_succ_iff.mp (List.mem_range.mp h3.1)⟩

lemma mem_assignments_zip :
    ∀ (cs : List ScoredCandidate) (xs : List ℕ), xs ∈ assignments cs →
      ∀ q ∈ cs.zip xs, q.2 ∈ semiContinuousDomain q.1
  | [], xs, _, q, hq => by simp at hq
  | c :: cs, xs, hxs, q, hq => by
    rw [assignments] at hxs
    rcases List.mem_flatMap.mp hxs with ⟨x, hx, hmap⟩
    rcases List.mem_map.mp hmap with ⟨ys, hys, rfl⟩
    rw [List.zip_cons_cons] at hq
    rcases List.mem_cons.mp hq with h1 | h2
    · rw [h1]; exact hx
    · exact mem_assignments_zip cs ys hys q h2

lemma sum_selected_eq_totalOf (f : ScoredCandidate → ℚ) :
    ∀ (cs : List ScoredCandidate) (xs : List ℕ),
      ((((cs.zip xs).filter (fun q => decide (0 < q.2))).map
        (fun q => f q.1 * (q.2 : ℚ)))).sum = totalOf f cs xs
  | [], xs => by simp [totalOf]
  | c :: cs, [] => by simp [totalOf]
  | c :: cs, x :: xs => by
    rw [totalOf, List.zip_cons_cons, List.zipWith_cons_cons, List.sum_cons,
      List.filter_cons]
    by_cases hx : 0 < x
    · rw [if_pos (by exact decide_eq_true hx), List.map_cons, List.sum_cons,
        sum_selected_eq_totalOf f cs xs, totalOf]
    · have hx0 : x = 0 := Nat.eq_zero_of_not_pos hx
      rw [if_neg (by simp [hx0]), sum_selected_eq_totalOf f cs xs, totalOf, hx0]
      simp

lemma solveBounded_optimal_mem {fuel : ℕ} {cfg : OptimizationConfig}
    {cs : List ScoredCandidate} {xs : List ℕ}
    (h : solveBounded fuel cfg cs = .optimalAssignment xs) :
    xs ∈ (assignments cs).filter (feasibleAssignment cfg cs) := by
  rw [solveBounded] at h
  by_cases hfuel : fuel < (assignments cs).length
  · rw [if_pos hfuel] at h
    cases h
  · rw [if_neg hfuel] at h
    cases hbest : bestBy (objectiveValue cs)
        ((assignments cs).filter (feasibleAssignment cfg cs)) with
    | none => rw [hbest] at h; cases h
    | some ys =>
      rw [hbest] at h
      injection h with h
      exact h ▸ bestBy_mem _ _ _ hbest

lemma mem_scoreCandidates {cfg : OptimizationConfig} {ds : List DerivedMetrics}
    {c : ScoredCandidate} (h : c ∈ scoreCandidates cfg ds) : c.metrics ∈ ds := by
  simp only [scoreCandidates] at h
  rcases List.mem_map.mp h with ⟨⟨q1, q2⟩, hq, rfl⟩
  exact (List.of_mem_zip hq).1

lemma mem_candidateSet {cfg : OptimizationConfig} {ps : List Product}
    {d : DerivedMetrics} (h : d ∈ candidateSet cfg ps) :
    ∃ p ∈ ps, d = deriveMetrics cfg p := by
  rw [candidateSet] at h
  have h2 := List.mem_filter.mp h
  rcases List.mem_map.mp h2.1 with ⟨p, hp, rfl⟩
  exact ⟨p, hp, rfl⟩

/-- Exhaustive case split over the engine pipeline: every run is either
one of the four all-zero outcomes (degenerate geometry, empty candidate
set, time limit, infeasible) or the aggregation of a feasible
assignment returned by the bounded solver. -/
lemma optimize_cases (fuel : ℕ) (cfg : OptimizationConfig) (ps : List Product) :
    (∃ m, optimize fuel cfg ps = zeroResults .Error m) ∨
    (∃ m, optimize fuel cfg ps = zeroResults .Optimal m) ∨
    (∃ m, optimize fuel cfg ps = zeroResults .Undefined m) ∨
    (∃ m, optimize fuel cfg ps = zeroResults .Infeasible m) ∨
    (∃ xs, xs ∈ (assignments (scoreCandidates cfg (candidateSet cfg ps))).filter
        (feasibleAssignment cfg (scoreCandidates cfg (candidateSet cfg ps))) ∧
      optimize fuel cfg ps =
        aggregateResults cfg (scoreCandidates cfg (candidateSet cfg ps)) xs) := by
  cases hfind : (candidateSet cfg ps).find? (fun d => decide (d.unitVolume ≤ 0)) with
  | some d =>
    refine Or.inl ⟨"Degenerate geometry for SKU " ++ d.product.SKU, ?_⟩
    simp only [optimize]
    rw [hfind]
  | none =>
    cases hc : candidateSet cfg ps with
    | nil =>
      refine Or.inr (Or.inl ⟨"Optimal - no products require shipment", ?_⟩)
      simp only [optimize]
      rw [hfind, hc]
    | cons c cs =>
      cases hs : solveBounded fuel cfg (scoreCandidates cfg (c :: cs)) with
      | noConclusion =>
        refine Or.inr (Or.inr (Or.inl
          ⟨"Solver stopped at the time limit without a conclusive status", ?_⟩))
        simp only [optimize]
        rw [hfind, hc, hs]
      | infeasible =>
        refine Or.inr (Or.inr (Or.inr (Or.inl
          ⟨"Constraints cannot be simultaneously satisfied", ?_⟩)))
        simp only [optimize]
        rw [hfind, hc, hs]
      | optimalAssignment xs =>
        refine Or.inr (Or.inr (Or.inr (Or.inr
          ⟨xs, solveBounded_optimal_mem hs, ?_⟩)))
        simp only [optimize]
        rw [hfind, hc, hs]

lemma feasible_sums {cfg : OptimizationConfig} {cs : List ScoredCandidate}
    {xs : List ℕ} (h : feasibleAssignment cfg cs xs = true) :
    totalOf (fun c => c.metrics.unitVolume) cs xs ≤ cfg.CONTAINER_VOLUME_M3 ∧
    totalOf (fun c => c.metrics.product.WeightPerBox_kg) cs xs ≤ cfg.CONTAINER_MAX_WEIGHT_KG ∧
    totalOf (fun c => c.metrics.product.CostPerBox) cs xs ≤ cfg.AVAILABLE_BUDGET := by
  rw [feasibleAssignment, Bool.and_assoc, Bool.and_eq_true, Bool.and_eq_true] at h
  exact ⟨of_decide_eq_true h.1, of_decide_eq_true h.2.1, of_decide_eq_true h.2.2⟩

/-- C1: on an Optimal result, every emitted item comes from an input
product, its SelectedQty never exceeds the derived OrderQty, and it is
either zero or at least the product's MinShipQty - no quantity strictly
between 0 and MinShipQty ever appears. -/
theorem optimal_items_semicontinuous (fuel : ℕ) (cfg : OptimizationConfig)
    (ps : List Product)
    (hopt : (optimize fuel cfg ps).status = .Optimal) :
    ∀ it ∈ (optimize fuel cfg ps).selectedItems,
      ∃ p ∈ ps, it.SKU = p.SKU ∧ it.OrderQty = orderQty cfg p ∧
        it.SelectedQty ≤ it.OrderQty ∧
        (it.SelectedQty = 0 ∨ p.MinShipQty ≤ it.SelectedQty) := by
  intro it hit
  rcases optimize_cases fuel cfg ps with ⟨m, he⟩ | ⟨m, he⟩ | ⟨m, he⟩ | ⟨m, he⟩ |
    ⟨xs, hxs, he⟩
  · rw [he] at hopt; cases hopt
  · rw [he] at hit; cases hit
  · rw [he] at hopt; cases hopt
  · rw [he] at hopt; cases hopt
  · rw [he] at hit
    have hitems : (aggregateResults cfg (scoreCandidates cfg (candidateSet cfg ps)) xs).selectedItems
        = selectedResultItems (scoreCandidates cfg (candidateSet cfg ps)) xs := rfl
    rw [hitems, selectedResultItems] at hit
    rcases List.mem_map.mp hit with ⟨⟨c, q⟩, hq, rfl⟩
    have hq2 := List.mem_filter.mp hq
    have hqpos : 0 < q := of_decide_eq_true hq2.2
    have hxsmem : xs ∈ assignments (scoreCandidates cfg (candidateSet cfg ps)) :=
      (List.mem_filter.mp hxs).1
    have hdom := mem_assignments_zip _ xs hxsmem (c, q) hq2.1
    rcases mem_semiContinuousDomain hdom with h0 | ⟨_, hmin, hord⟩
    · exact absurd h0 (Nat.pos_iff_ne_zero.mp hqpos)
    · have hcmem : c ∈ scoreCandidates cfg (candidateSet cfg ps) :=
        (List.of_mem_zip hq2.1).1
      rcases mem_candidateSet (mem_scoreCandidates hcmem) with ⟨p, hp, hder⟩
      refine ⟨p, hp, ?_, ?_, ?_, Or.inr ?_⟩
      · rw [mkResultItem, hder, deriveMetrics]
      · rw [mkResultItem, hder, deriveMetrics]
      · exact hord
      · rw [mkResultItem]
        rw [hder, deriveMetrics] at hmin
        exact hmin

lemma sum_selectedItems_map (f : ScoredCandidate → ℚ) (g : ResultItem → ℚ)
    (hfg : ∀ c q, g (mkResultItem c q) = f c * (q : ℚ))
    (cs : List ScoredCandidate) (xs : List ℕ) :
    ((selectedResultItems cs xs).map g).sum = totalOf f cs xs := by
  rw [selectedResultItems, List.map_map]
  have hco : (g ∘ fun q => mkResultItem q.1 q.2) =
      fun (q : ScoredCandidate × ℕ) => f q.1 * (q.2 : ℚ) :=
    funext (fun q => hfg q.1 q.2)
  rw [hco]
  exact sum_selected_eq_totalOf f cs xs

/-- C2: on an Optimal result the sums of VolumeUsed_m3, WeightUsed_kg
and TotalCost over the emitted selectedItems respect all three capacity
limits simultaneously (capacities are positive by the input contract of
optimizationConfigSchema, here assumed non-negative). -/
theorem optimal_respects_capacities (fuel : ℕ) (cfg : OptimizationConfig)
    (ps : List Product)
    (hv : 0 ≤ cfg.CONTAINER_VOLUME_M3) (hw : 0 ≤ cfg.CONTAINER_MAX_WEIGHT_KG)
    (hb : 0 ≤ cfg.AVAILABLE_BUDGET)
    (hopt : (optimize fuel cfg ps).status = .Optimal) :
    (((optimize fuel cfg ps).selectedItems.map (fun it => it.VolumeUsed_m3)).sum
      ≤ cfg.CONTAINER_VOLUME_M3) ∧
    (((optimize fuel cfg ps).selectedItems.map (fun it => it.WeightUsed_kg)).sum
      ≤ cfg.CONTAINER_MAX_WEIGHT_KG) ∧
    (((optimize fuel cfg ps).selectedItems.map (fun it => it.TotalCost)).sum
      ≤ cfg.AVAILABLE_BUDGET) := by
  rcases optimize_cases fuel cfg ps with ⟨m, he⟩ | ⟨m, he⟩ | ⟨m, he⟩ | ⟨m, he⟩ |
    ⟨xs, hxs, he⟩
  · rw [he] at hopt; cases hopt
  · rw [he]
    simp only [zeroResults, List.map_nil, List.sum_nil]
    exact ⟨hv, hw, hb⟩
  · rw [he] at hopt; cases hopt
  · rw [he] at hopt; cases hopt
  · rw [he]
    have hfeas := feasible_sums (List.mem_filter.mp hxs).2
    have hitems : (aggregateResults cfg (scoreCandidates cfg (candidateSet cfg ps)) xs).selectedItems
        = selectedResultItems (scoreCandidates cfg (candidateSet cfg ps)) xs := rfl
    rw [hitems]
    refine ⟨?_, ?_, ?_⟩
    · rw [sum_selectedItems_map (fun c => c.metrics.unitVolume)
        (fun it => it.VolumeUsed_m3) (fun c q => rfl)]
      exact hfeas.1
    · rw [sum_selectedItems_map (fun c => c.metrics.product.WeightPerBox_kg)
        (fun it => it.WeightUsed_kg) (fun c q => rfl)]
      exact hfeas.2.1
    · rw [sum_selectedItems_map (fun c => c.metrics.product.CostPerBox)
        (fun it => it.TotalCost) (fun c q => rfl)]
      exact hfeas.2.2

/-- Every engine run yields a structurally well-formed result: any
non-Optimal status comes with all-zero aggregates, an empty item list
and a present status message. -/
lemma optimize_wellFormed (fuel : ℕ) (cfg : OptimizationConfig)
    (ps : List Product) : wellFormedResults (optimize fuel cfg ps) := by
  rcases optimize_cases fuel cfg ps with ⟨m, he⟩ | ⟨m, he⟩ | ⟨m, he⟩ | ⟨m, he⟩ |
    ⟨xs, _, he⟩ <;> rw [he] <;> intro hst
  · simp [zeroResults]
  · exact absurd rfl hst
  · simp [zeroResults]
  · simp [zeroResults]
  · exact absurd rfl hst

/-- C5: every outcome of the POST /api/optimize route - request
validation failure, server exception, non-zero solver process exit,
unparseable solver output, or a parsed engine result - produces a
structurally well-formed OptimizationResults: the status is one of the
five canonical values, and any non-Optimal status carries all-zero
totals and utilizations, an empty selectedItems list and a status
message describing the cause. -/
theorem route_always_well_formed (o : RouteOutcome)
    (heng : ∀ r, o = .parsed r → ∃ fuel cfg ps, r = optimize fuel cfg ps) :
    ((optimizeRoute o).2.status = .Optimal ∨ (optimizeRoute o).2.status = .Infeasible ∨
     (optimizeRoute o).2.status = .Unbounded ∨ (optimizeRoute o).2.status = .Undefined ∨
     (optimizeRoute o).2.status = .Error) ∧
    wellFormedResults (optimizeRoute o).2 := by
  constructor
  · cases h : (optimizeRoute o).2.status <;> simp
  · cases o with
    | zodError m => intro _; simp [optimizeRoute, zeroResults]
    | serverError m => intro _; simp [optimizeRoute, zeroResults]
    | exitNonZero m => intro _; simp [optimizeRoute, zeroResults]
    | parseFailure => intro _; simp [optimizeRoute, zeroResults]
    | parsed r =>
      rcases heng r rfl with ⟨fuel, cfg, ps, rfl⟩
      exact optimize_wellFormed fuel cfg ps

/-- C6: the solve step is bounded - the bounded solver is a total
function, and whenever the iteration budget is smaller than the search
space it gives up, making the engine return status Undefined instead of
blocking (hypotheses: a non-empty candidate set with no degenerate
geometry, so the run actually reaches the solver). -/
theorem solver_time_limit_undefined (fuel : ℕ) (cfg : OptimizationConfig)
    (ps : List Product)
    (hne : candidateSet cfg ps ≠ [])
    (hgeom : ∀ d ∈ candidateSet cfg ps, ¬ d.unitVolume ≤ 0)
    (hfuel : fuel < (assignments (scoreCandidates cfg (candidateSet cfg ps))).length) :
    (optimize fuel cfg ps).status = .Undefined := by
  have hfind : (candidateSet cfg ps).find? (fun d => decide (d.unitVolume ≤ 0)) = none :=
    List.find?_eq_none.mpr (fun d hd => by simpa using hgeom d hd)
  have hsol : solveBounded fuel cfg (scoreCandidates cfg (candidateSet cfg ps)) =
      .noConclusion := by
    rw [solveBounded]
    exact if_pos hfuel
  cases hc : candidateSet cfg ps with
  | nil => exact absurd hc hne
  | cons c cs =>
    rw [hc] at hfind hsol
    simp only [optimize]
    rw [hc, hfind, hsol]
    rfl

/-- C7: when every product derives orderQty 0 the candidate set is
empty and the engine short-circuits to an Optimal result with all
totals zero and no selected items, without invoking the solver. -/
theorem empty_candidate_set_optimal (fuel : ℕ) (cfg : OptimizationConfig)
    (ps : List Product) (h : ∀ p ∈ ps, orderQty cfg p = 0) :
    (optimize fuel cfg ps).status = .Optimal ∧
    (optimize fuel cfg ps).totalBoxes = 0 ∧
    (optimize fuel cfg ps).totalVolume_m3 = 0 ∧
    (optimize fuel cfg ps).totalWeight_kg = 0 ∧
    (optimize fuel cfg ps).totalCost = 0 ∧
    (optimize fuel cfg ps).totalProfit = 0 ∧
    (optimize fuel cfg ps).totalScore = 0 ∧
    (optimize fuel cfg ps).selectedItems = [] := by
  have hc : candidateSet cfg ps = [] := by
    rw [candidateSet]
    refine List.filter_eq_nil_iff.mpr ?_
    intro d hd
    rcases List.mem_map.mp hd with ⟨p, hp, rfl⟩
    simp [deriveMetrics, h p hp]
  have he : optimize fuel cfg ps =
      zeroResults .Optimal "Optimal - no products require shipment" := by
    simp only [optimize]
    rw [hc]
    rfl
  rw [he]
  exact ⟨rfl, rfl, rfl, rfl, rfl, rfl, rfl, rfl⟩

/-- C10: the upload endpoint accepts partially valid files - whenever at
least one row passes productSchema validation the response is HTTP 200
with success true and exactly the validated subset of rows; an HTTP 400
rejection happens only when no file was uploaded or when not a single
row validated. -/
theorem upload_partial_accept (rs : List RawRecord)
    (hsome : ∃ r ∈ rs, validProduct r = true) :
    ((uploadRoute (some rs)).httpStatus = 200 ∧
     (uploadRoute (some rs)).success = true ∧
     (uploadRoute (some rs)).products = rs.filter validProduct) ∧
    (∀ o, (uploadRoute o).httpStatus = 400 →
      o = none ∨ ∃ rs2, o = some rs2 ∧ ∀ r ∈ rs2, validProduct r = false) := by
  constructor
  · rcases hsome with ⟨r, hr, hvr⟩
    have hne : rs.filter validProduct ≠ [] := by
      intro hnil
      have := List.filter_eq_nil_iff.mp hnil r hr
      rw [hvr] at this
      exact this rfl
    rw [uploadRoute]
    rw [if_neg (fun hand => hne hand.2)]
    exact ⟨rfl, rfl, rfl⟩
  · intro o h400
    cases o with
    | none => exact Or.inl rfl
    | some rs2 =>
      refine Or.inr ⟨rs2, rfl, ?_⟩
      rw [uploadRoute] at h400
      by_cases hcond : uploadErrors rs2 ≠ [] ∧ rs2.filter validProduct = []
      · intro r hr
        have := List.filter_eq_nil_iff.mp hcond.2 r hr
        exact Bool.not_eq_true _ ▸ Bool.of_not_eq_true this
      · rw [if_neg hcond] at h400
        cases h400

/-! Evaluation lemmas for the closed sample run (the kernel cannot
reduce rational arithmetic, so the sample pipeline is evaluated through
simp and norm_num step by step). -/

lemma evalOrderQtyA : orderQty cfg0 pA = 3 := by
  rw [orderQty]
  norm_num [demand, effectiveLeadTime, pA, cfg0]
  decide

lemma evalCandsA : candidateSet cfg0 [pA] = [dA] := by
  rw [candidateSet]
  simp only [List.map_cons, List.map_nil, deriveMetrics, evalOrderQtyA]
  norm_num [unitVolume, dA, pA]

lemma evalScoredA : scoreCandidates cfg0 [dA] = [cA] := by
  norm_num [scoreCandidates, normalizeList, normalizeValue, rminList, rmaxList,
    dA, cA, pA, cfg0]

lemma evalAssignmentsA : assignments [cA] = [[0], [2], [3]] := by
  norm_num [assignments, semiContinuousDomain, cA, dA, pA, List.range_succ]

lemma evalSolveA : solveBounded 10 cfg0 [cA] = .optimalAssignment [3] := by
  simp only [solveBounded, evalAssignmentsA]
  norm_num [feasibleAssignment, totalOf, objectiveValue, bestBy, cA, dA, pA, cfg0]

lemma evalOptimizeA : optimize 10 cfg0 [pA] = aggregateResults cfg0 [cA] [3] := by
  have hfind : List.find? (fun d => decide (d.unitVolume ≤ 0)) [dA] = none := by
    norm_num [List.find?, dA]
  simp only [optimize, evalCandsA, hfind, evalScoredA, evalSolveA]

lemma evalStatusA : (optimize 10 cfg0 [pA]).status = .Optimal := by
  rw [evalOptimizeA]
  rfl

lemma evalItemsA : (optimize 10 cfg0 [pA]).selectedItems = [itemA] := by
  rw [evalOptimizeA]
  show selectedResultItems [cA] [3] = [itemA]
  rw [selectedResultItems, itemA]
  rfl

lemma evalOrderQtyStocked : orderQty cfg0 pStocked = 0 := by
  rw [orderQty]
  norm_num [demand, effectiveLeadTime, pStocked, cfg0]

/-- Witness for C1 at the sample run: the engine selects quantity 3 of
pA, which is within [MinShipQty, OrderQty] = [2, 3]. -/
theorem optimal_items_semicontinuous_witness :
    ∃ p ∈ [pA], itemA.SKU = p.SKU ∧ itemA.OrderQty = orderQty cfg0 p ∧
      itemA.SelectedQty ≤ itemA.OrderQty ∧
      (itemA.SelectedQty = 0 ∨ p.MinShipQty ≤ itemA.SelectedQty) :=
  optimal_items_semicontinuous 10 cfg0 [pA] evalStatusA itemA
    (by rw [evalItemsA]; exact List.mem_singleton.mpr rfl)

/-- Witness for C2 at the sample run. -/
theorem optimal_respects_capacities_witness :
    (((optimize 10 cfg0 [pA]).selectedItems.map (fun it => it.VolumeUsed_m3)).sum
      ≤ cfg0.CONTAINER_VOLUME_M3) ∧
    (((optimize 10 cfg0 [pA]).selectedItems.map (fun it => it.WeightUsed_kg)).sum
      ≤ cfg0.CONTAINER_MAX_WEIGHT_KG) ∧
    (((optimize 10 cfg0 [pA]).selectedItems.map (fun it => it.TotalCost)).sum
      ≤ cfg0.AVAILABLE_BUDGET) :=
  optimal_respects_capacities 10 cfg0 [pA] (by norm_num [cfg0]) (by norm_num [cfg0])
    (by norm_num [cfg0]) evalStatusA

/-- Witness for C4 on the concrete metric list [3, 1, 2]. -/
theorem score_normalizer_minmax_witness :
    (∀ v ∈ normalizeList [(3 : ℚ), 1, 2], 0 ≤ v ∧ v ≤ 1) ∧
    (rmaxList [(3 : ℚ), 1, 2] = rminList [(3 : ℚ), 1, 2] →
      ∀ v ∈ normalizeList [(3 : ℚ), 1, 2], v = 1) ∧
    (rmaxList [(3 : ℚ), 1, 2] ≠ rminList [(3 : ℚ), 1, 2] →
      (0 : ℚ) ∈ normalizeList [(3 : ℚ), 1, 2] ∧
      (1 : ℚ) ∈ normalizeList [(3 : ℚ), 1, 2]) :=
  score_normalizer_minmax [(3 : ℚ), 1, 2] (by simp)

/-- Witness for C5: the route response around a genuine engine result
is well-formed. -/
theorem route_always_well_formed_witness :
    ((optimizeRoute (.parsed (optimize 10 cfg0 [pA]))).2.status = .Optimal ∨
     (optimizeRoute (.parsed (optimize 10 cfg0 [pA]))).2.status = .Infeasible ∨
     (optimizeRoute (.parsed (optimize 10 cfg0 [pA]))).2.status = .Unbounded ∨
     (optimizeRoute (.parsed (optimize 10 cfg0 [pA]))).2.status = .Undefined ∨
     (optimizeRoute (.parsed (optimize 10 cfg0 [pA]))).2.status = .Error) ∧
    wellFormedResults (optimizeRoute (.parsed (optimize 10 cfg0 [pA]))).2 :=
  route_always_well_formed (.parsed (optimize 10 cfg0 [pA]))
    (fun r h => ⟨10, cfg0, [pA], by injection h with h; exact h.symm⟩)

/-- Witness for C6: with a zero iteration budget over a 3-assignment
search space the engine reports Undefined. -/
theorem solver_time_limit_undefined_witness :
    (optimize 0 cfg0 [pA]).status = .Undefined :=
  solver_time_limit_undefined 0 cfg0 [pA]
    (by rw [evalCandsA]; simp)
    (by rw [evalCandsA]; intro d hd; rw [List.mem_singleton.mp hd]; norm_num [dA])
    (by rw [evalCandsA, evalScoredA, evalAssignmentsA]; simp)

/-- Witness for C7: a product whose stock covers demand yields the
trivial Optimal result. -/
theorem empty_candidate_set_optimal_witness :
    (optimize 5 cfg0 [pStocked]).status = .Optimal ∧
    (optimize 5 cfg0 [pStocked]).totalBoxes = 0 ∧
    (optimize 5 cfg0 [pStocked]).totalVolume_m3 = 0 ∧
    (optimize 5 cfg0 [pStocked]).totalWeight_kg = 0 ∧
    (optimize 5 cfg0 [pStocked]).totalCost = 0 ∧
    (optimize 5 cfg0 [pStocked]).totalProfit = 0 ∧
    (optimize 5 cfg0 [pStocked]).totalScore = 0 ∧
    (optimize 5 cfg0 [pStocked]).selectedItems = [] :=
  empty_candidate_set_optimal 5 cfg0 [pStocked]
    (fun p hp => by rw [List.mem_singleton.mp hp]; exact evalOrderQtyStocked)

/-- Witness for C8 at the sample input. -/
theorem optimize_deterministic_witness :
    optimize 10 cfg0 [pA] = optimize 10 cfg0 [pA] ∧
    (optimize 10 cfg0 [pA]).selectedItems = (optimize 10 cfg0 [pA]).selectedItems :=
  optimize_deterministic 10 cfg0 cfg0 [pA] [pA] rfl rfl

/-- Witness for C9: pNoLead falls back to the global default, pA keeps
its own lead time 1. -/
theorem lead_time_defaulting_witness :
    (effectiveLeadTime cfg0 pNoLead = cfg0.GLOBAL_LEAD_TIME_DAYS ∧
     demand cfg0 pNoLead =
       pNoLead.SalesPerDay * ((cfg0.GLOBAL_LEAD_TIME_DAYS : ℚ) + (pNoLead.CoverageDays : ℚ))) ∧
    (effectiveLeadTime cfg0 pA = 1 ∧
     demand cfg0 pA = pA.SalesPerDay * ((1 : ℚ) + (pA.CoverageDays : ℚ))) :=
  ⟨(lead_time_defaulting cfg0 pNoLead).1 rfl,
   (lead_time_defaulting cfg0 pA).2 1 rfl⟩

/-- Witness for C10: a file with one valid and one invalid row is
accepted with exactly the valid row. -/
theorem upload_partial_accept_witness :
    (((uploadRoute (some [rGood, rBad])).httpStatus = 200 ∧
      (uploadRoute (some [rGood, rBad])).success = true ∧
      (uploadRoute (some [rGood, rBad])).products = [rGood, rBad].filter validProduct) ∧
     (∀ o, (uploadRoute o).httpStatus = 400 →
       o = none ∨ ∃ rs2, o = some rs2 ∧ ∀ r ∈ rs2, validProduct r = false)) :=
  upload_partial_accept [rGood, rBad]
    ⟨rGood, List.mem_cons_self rGood [rBad],
      by norm_num [validProduct, isIntRat, rGood]; decide⟩

end ContainerOpt

